import Mathlib

/-!
Verification of the remote command execution and node lifecycle engine of the
qubic-infra-admin-backend repository.

The repository ships several revisions of its SSH service.  The newest revision
(`SSHService` in src/unnamed/part_013, first document, lines 182-908) is the one
the behavioural claims point at; an older revision lives at
src/src/services/ssh-service.ts.  Where the two revisions disagree (the
`deployNode` "setting_up" guard) both are embedded, with `New`/`Old` suffixes.

Modelling conventions:
 - JavaScript arrays are Lean `List`s; `Array.prototype.unshift`/`push` are the
   in-place mutations `jsUnshift`/`jsPush` (the caller's array afterwards holds
   the returned list).
 - JavaScript numbers are Lean `Int`s; the JS "or default" idiom `x || d`
   (which replaces the falsy number 0 by `d`) is `jsOrInt`.
 - Maps keyed by strings are total functions `String → String` defaulting to
   `""` (matching the `(m[k] || "") + out` accumulation idiom) or association
   lists where deletion matters.
-/

namespace JsStr

/-- Character-level "starts with": `leadsWith p s` is true when `p` is an
initial segment of `s`.  Used to model `String.prototype.startsWith` and
substring search on JS strings (kept on `List Char` so that the kernel can
evaluate it). -/
def leadsWith : List Char → List Char → Bool
  | [], _ => true
  | _ :: _, [] => false
  | a :: as, b :: bs => a == b && leadsWith as bs

/-- Substring occurrence: `occursIn p s` is true when `p` occurs contiguously
in `s`.  Models `String.prototype.includes`. -/
def occursIn (pat : List Char) : List Char → Bool
  | [] => leadsWith pat []
  | c :: rest => leadsWith pat (c :: rest) || occursIn pat rest

/-- JS `s.includes(pat)`. -/
def jsIncludes (s pat : String) : Bool := occursIn pat.data s.data

/-- ASCII whitespace, the fragment of JS `trim`'s whitespace class that occurs
in this code base's data. -/
def isWhitespaceChar (c : Char) : Bool :=
  c == ' ' || c == '\t' || c == '\n' || c == '\r'

/-- JS `s.trim()` on the character list. -/
def trimChars (cs : List Char) : List Char :=
  ((cs.dropWhile isWhitespaceChar).reverse.dropWhile isWhitespaceChar).reverse

/-- JS `s.trim()` returning a string. -/
def jsTrim (s : String) : String := String.mk (trimChars s.data)

/-- JS `s.startsWith(pat)`. -/
def jsStartsWith (s pat : String) : Bool := leadsWith pat.data s.data

/-- JS `s.endsWith(pat)`. -/
def jsEndsWith (s pat : String) : Bool := leadsWith pat.data.reverse s.data.reverse

theorem occursIn_append_right (pat l r : List Char) :
    occursIn pat r = true → occursIn pat (l ++ r) = true := by
  induction l with
  | nil => simp
  | cons c cs ih =>
    intro h
    simp only [List.cons_append, occursIn, Bool.or_eq_true]
    exact Or.inr (ih h)

end JsStr

namespace SSHService

open JsStr

/-- JS `arr.unshift(x)`: prepends `x`; the caller's array afterwards holds the
returned list. -/
def jsUnshift (arr : List String) (x : String) : List String := x :: arr

/-- JS `arr.push(x)`: appends `x`; the caller's array afterwards holds the
returned list. -/
def jsPush (arr : List String) (x : String) : List String := arr ++ [x]

/-- The predicate of the filter expression at src/unnamed/part_013 line 711,
`(cmd) => cmd && !cmd.trim().startsWith("#")`: a command is kept when it is
truthy (non-empty) and its trimmed text does not start with `#`. -/
def keepCommand (cmd : String) : Bool :=
  !cmd.data.isEmpty && !leadsWith ['#'] (trimChars cmd.data)

/-- `Array.prototype.filter` with `keepCommand`: what line 711 of
src/unnamed/part_013 computes.  `filter` does not mutate its receiver, and the
source discards this return value, so this list never reaches the shell. -/
def filteredCommands (cs : List String) : List String := cs.filter keepCommand

/-- State of the caller's `commands` array after lines 710-711 of
src/unnamed/part_013: line 710 `commands.unshift("exec 2>&1")` mutates the
array; line 711 `commands.filter(...)` computes `filteredCommands` but its
result is discarded, so the array is left unfiltered. -/
def commandsAfterLine711 (cs : List String) : List String :=
  jsUnshift cs "exec 2>&1"

/-- The sentinel variable assignment prepended on the interactive path
(src/unnamed/part_013 line 755). -/
def qdoneAssignment : String := "QDONE=qdone_signal"

/-- The sentinel echo appended as the final interactive command
(src/unnamed/part_013 line 756). -/
def sentinelEcho : String := "echo \"GETHERE@$QDONE\""

/-- The marker searched for in the received data
(src/unnamed/part_013 line 757). -/
def expectedDoneSignalStr : String := "GETHERE@qdone_signal"

/-- State of the caller's `commands` array on the interactive path once the
connection is ready (src/unnamed/part_013 lines 753-756): unshift `set -e`,
unshift the sentinel assignment, push the sentinel echo — applied on top of the
state after line 711. -/
def interactiveCommands (cs : List String) : List String :=
  jsPush (jsUnshift (jsUnshift (commandsAfterLine711 cs) "set -e") qdoneAssignment)
    sentinelEcho

/-- On the non-interactive path the `commands` array is not mutated further
after line 711; each of its elements is run as its own exec channel
(src/unnamed/part_013 lines 798-831). -/
def nonInteractiveCommands (cs : List String) : List String :=
  commandsAfterLine711 cs

/-- Everything written to the interactive shell channel
(src/unnamed/part_013 lines 792-795): each command followed by a newline, then
`stream.end("exit\n")`. -/
def writtenToShell (cs : List String) : String :=
  String.join ((interactiveCommands cs).map (fun c => c ++ "\n")) ++ "exit\n"

/-- `inlineBashCommands` from src/src/utils/ip.ts lines 151-155: filter out
falsy and comment commands, join by " && ". -/
def inlineBashCommands (commands : List String) : String :=
  String.intercalate " && " (commands.filter keepCommand)

end SSHService

namespace SSHService

/-- JS `x || d` on numbers: `0` is falsy and replaced by the default. -/
def jsOrInt (x d : Int) : Int := if x = 0 then d else x

/-- JS `o?.f || d`: optional-chain then default. -/
def jsOptOrInt (o : Option Int) (d : Int) : Int :=
  match o with
  | none => d
  | some v => jsOrInt v d

/-!
Interactive-session semantics (src/unnamed/part_013 lines 757-796, 858-887).
The shell stream delivers data chunks and eventually a close (or an error is
emitted).  `isDoneSignalReceived` starts `false` and is set when a chunk
contains `expectedDoneSignalStr` (checked per chunk against the raw
`data.toString()`, before ANSI stripping).  The promise settles at the first
terminal event (`isFinallyDone` guard): on `done` the stream-close handler has
passed the flag and `isSuccess := isDoneSignalReceived`; on `error`,
`isSuccess := false`.
-/

/-- An event observed by the interactive `executeCommands` path. -/
inductive SessionEvent
  | data (chunk : String)
  | closed
  | errored
  deriving DecidableEq

/-- The `isSuccess` value `executeCommands` settles on, given the ordered
session events: `none` if no terminal event ever fires.  The `Bool` argument
is the current `isDoneSignalReceived` flag. -/
def interactiveOutcome : List SessionEvent → Bool → Option Bool
  | [], _ => none
  | SessionEvent.data c :: rest, flag =>
      interactiveOutcome rest (flag || JsStr.jsIncludes c expectedDoneSignalStr)
  | SessionEvent.closed :: _, flag => some flag
  | SessionEvent.errored :: _, _ => some false

/-!
Non-interactive (per-command exec) semantics
(src/unnamed/part_013 lines 798-831).  One exec channel per command, run
sequentially; `isDoneSignalReceived` starts `true` and is cleared whenever a
channel closes with a non-zero exit code; `done` fires once every channel has
closed, and `isSuccess` is the final flag.  `handleOnData`/`handleOnErrorData`
(lines 726-748) append each ANSI-stripped chunk to the bucket keyed by the
literal command string.  ANSI stripping is the external `strip-ansi` npm
library, modelled as an arbitrary function parameter.
-/

/-- What one exec channel produced: its exit code at close and its ordered
stdout/stderr data chunks. -/
structure ExecChannelResult where
  exitCode : Int
  stdoutChunks : List String
  stderrChunks : List String
  deriving DecidableEq

/-- The output maps: JS objects `stdouts`/`stderrs` with accumulation
`m[k] = (m[k] || "") + out`, modelled as total functions defaulting to `""`. -/
def StrMap := String → String

/-- The freshly initialised output map (lines 700-707). -/
def emptyStrMap : StrMap := fun _ => ""

/-- One `handleOnData`/`handleOnErrorData` append at key `k`. -/
def strMapAppend (m : StrMap) (k v : String) : StrMap :=
  fun x => if x = k then m k ++ v else m x

/-- Result shape of `executeCommands` restricted to what the non-interactive
path computes (duration omitted). -/
structure NonInteractiveResult where
  stdouts : StrMap
  stderrs : StrMap
  isSuccess : Bool

/-- The non-interactive execution of `executeCommands`: `jobs` pairs each
executed command string with its channel's results. -/
def runNonInteractive (stripAnsi : String → String)
    (jobs : List (String × ExecChannelResult)) : NonInteractiveResult where
  stdouts := jobs.foldl
    (fun m j => j.2.stdoutChunks.foldl (fun m c => strMapAppend m j.1 (stripAnsi c)) m)
    emptyStrMap
  stderrs := jobs.foldl
    (fun m j => j.2.stderrChunks.foldl (fun m c => strMapAppend m j.1 (stripAnsi c)) m)
    emptyStrMap
  isSuccess := jobs.foldl (fun b j => if j.2.exitCode ≠ 0 then false else b) true

/-!
Per-host execution lock (src/unnamed/part_013 lines 424-434, 685-902).
`_accquireExecutionLock` poll-waits (a 100ms `setTimeout` per iteration) while
the host's flag is set, then sets it; the check and the set are separated by
no suspension point, so they are atomic in the single-threaded event loop.
`_releaseExecutionLock` clears the flag; `executeCommands` calls it after the
`try`/`catch` on every path (line 897), so the flag is cleared whether the
body succeeded, failed, timed out or threw.  The interleaving of concurrent
`executeCommands` callers targeting one host is modelled as a transition
system.
-/

/-- The millisecond interval of one poll-wait iteration
(src/unnamed/part_013 line 427). -/
def pollIntervalMs : Nat := 100

/-- Where a caller of `executeCommands` is relative to the host lock. -/
inductive CallerPhase
  | idle
  | waiting
  | running
  | finished
  deriving DecidableEq

/-- `n` concurrent callers targeting one host, plus that host's entry of
`_isExecutingCommandsMap`. -/
structure LockSystem (n : Nat) where
  flag : Bool
  phase : Fin n → CallerPhase

/-- Initially the host is not executing and nobody has called. -/
def initLockSystem (n : Nat) : LockSystem n :=
  { flag := false, phase := fun _ => CallerPhase.idle }

/-- Atomic steps of the lock protocol, as the event loop interleaves them:
`invoke` enters `_accquireExecutionLock`; `poll` is one sleep iteration of its
wait loop while the flag is held; `acquire` is the atomic check-and-set when
the flag is clear; `release` is `_releaseExecutionLock` at the end of
`executeCommands`, taken on every exit path. -/
inductive LockStep {n : Nat} : LockSystem n → LockSystem n → Prop
  | invoke (s : LockSystem n) (i : Fin n) (h : s.phase i = CallerPhase.idle) :
      LockStep s { flag := s.flag, phase := Function.update s.phase i CallerPhase.waiting }
  | poll (s : LockSystem n) (i : Fin n) (h : s.phase i = CallerPhase.waiting)
      (hf : s.flag = true) : LockStep s s
  | acquire (s : LockSystem n) (i : Fin n) (h : s.phase i = CallerPhase.waiting)
      (hf : s.flag = false) :
      LockStep s { flag := true, phase := Function.update s.phase i CallerPhase.running }
  | release (s : LockSystem n) (i : Fin n) (h : s.phase i = CallerPhase.running) :
      LockStep s { flag := false, phase := Function.update s.phase i CallerPhase.finished }

/-- States reachable by the lock protocol. -/
inductive LockReachable {n : Nat} : LockSystem n → Prop
  | init : LockReachable (initLockSystem n)
  | step {s t : LockSystem n} : LockReachable s → LockStep s t → LockReachable t

/-- The inductive invariant: a running caller implies the flag is held, and at
most one caller is running. -/
def lockInvariant {n : Nat} (s : LockSystem n) : Prop :=
  (∀ i, s.phase i = CallerPhase.running → s.flag = true) ∧
  ∀ i j, s.phase i = CallerPhase.running → s.phase j = CallerPhase.running → i = j

/-- `_isExecutingCommandsMap` as a whole (all hosts). -/
def acquireLockState (locks : String → Bool) (host : String) : String → Bool :=
  Function.update locks host true

/-- `_releaseExecutionLock host` on the lock map. -/
def releaseLockState (locks : String → Bool) (host : String) : String → Bool :=
  Function.update locks host false

/-- The four ways the body of `executeCommands` can settle
(src/unnamed/part_013 lines 858-895). -/
inductive ExecOutcome
  | success
  | failure
  | timeout
  | exception

/-- The lock map when `executeCommands` returns: the lock acquired at entry
(line 698) is released at line 897, which sits after the `try`/`catch` and
before the `return`, hence runs for every outcome of the body; the body
itself never touches the lock map. -/
def executeCommandsLockAfter (locks : String → Bool) (host : String)
    (o : ExecOutcome) : String → Bool :=
  match o with
  | _ => releaseLockState (acquireLockState locks host) host

/-! Script builders.  URL helpers come from src/src/utils/ip.ts; the script
lists are the `Scripts` object of the newest SSH-service revision
(src/unnamed/part_013 lines 230-416) and, where marked `Old`, of the older
revision at src/src/services/ssh-service.ts. -/

/-- `getBasenameFromUrl` (src/src/utils/ip.ts lines 111-113):
`url.substring(url.lastIndexOf("/") + 1)`. -/
def getBasenameFromUrl (url : String) : String :=
  String.mk ((url.data.reverse.takeWhile (fun c => c != '/')).reverse)

/-- `getUnzipCommandFromUrl` (src/src/utils/ip.ts lines 116-136). -/
def getUnzipCommandFromUrl (url : String) : String :=
  let filename := getBasenameFromUrl url
  if JsStr.jsEndsWith filename ".zip" then "unzip " ++ filename
  else if JsStr.jsEndsWith filename ".tar.gz" || JsStr.jsEndsWith filename ".tgz" then
    "tar -xvzf " ++ filename
  else if JsStr.jsEndsWith filename ".tar.bz2" || JsStr.jsEndsWith filename ".tbz2" then
    "tar -xvjf " ++ filename
  else if JsStr.jsEndsWith filename ".tar.xz" || JsStr.jsEndsWith filename ".txz" then
    "tar -xvJf " ++ filename
  else ""

def LITE_SCREEN_NAME : String := "qubic"

def BOB_SCREEN_NAME : String := "bob"

/-- `getLiteNodeSetupScripts` of the newest revision
(src/unnamed/part_013 lines 238-279). -/
def getLiteNodeSetupScriptsNew (binaryUrl epochFile : String) (peers : List String)
    (isRestart : Bool) : List String :=
  if isRestart then
    [ "cd ~",
      "cd qlite",
      "CURRENT_PEERS=$(cat peers.txt)",
      "CURRENT_BINARY=$(cat binary_name.txt)",
      "screen -dmS " ++ LITE_SCREEN_NAME ++
        " bash -lc \"./$CURRENT_BINARY -s 32 --peers $CURRENT_PEERS\"" ]
  else
    let peersString := String.intercalate "," peers
    let binaryName := getBasenameFromUrl binaryUrl
    [ "date",
      "cd ~",
      "rm -rf qlite",
      "mkdir -p qlite",
      "cd qlite",
      "wget " ++ binaryUrl,
      "chmod +x ./" ++ binaryName,
      "wget " ++ epochFile,
      getUnzipCommandFromUrl epochFile,
      "echo \"" ++ peersString ++ "\" > peers.txt",
      "echo \"" ++ binaryName ++ "\" > binary_name.txt",
      "CURRENT_PEERS=$(cat peers.txt)",
      "CURRENT_BINARY=$(cat binary_name.txt)",
      "screen -dmS " ++ LITE_SCREEN_NAME ++
        " bash -lc \"./$CURRENT_BINARY -s 32 --peers $CURRENT_PEERS\"" ]

/-- The keydb cache size computed by `getBobNodeSetupScripts`
(src/unnamed/part_013 lines 294-307): system RAM minus the reservations of
`totalRamNeededInSystem` (40 lite + 6 bob + 2 system), clamped below at
12GB. -/
def totalRamNeededForKeydbInGB (systemRamInGB : Int) : Int :=
  let r := systemRamInGB - 40 - 6 - 2
  if r < 12 then 12 else r

/-- The keydb launch command of `getBobNodeSetupScripts`
(src/unnamed/part_013 lines 315 and 348), which interpolates the computed
cache size into `--maxmemory`. -/
def keydbScreenCommand (systemRamInGB : Int) : String :=
  "screen -dmS keydb bash -lc \"keydb-server --maxmemory " ++
    toString (totalRamNeededForKeydbInGB systemRamInGB) ++
    "G --maxmemory-policy allkeys-lru\""

/-- The keydb readiness wait of `getBobNodeSetupScripts`
(src/unnamed/part_013 lines 316 and 349). -/
def keydbWaitCommand : String :=
  "until [[ \"$(keydb-cli ping 2>/dev/null)\" == \"PONG\" ]]; do \x7b echo \"Waiting for keydb...\"; sleep 1; \x7d; done"

/-- The bob launch command of `getBobNodeSetupScripts`
(src/unnamed/part_013 lines 317 and 350). -/
def bobScreenCommand : String :=
  "screen -dmS " ++ BOB_SCREEN_NAME ++ " bash -lc \"./$CURRENT_BINARY bob_config.json || exec bash\""

/-- JSON encoding of a string, as `JSON.stringify` renders the plain strings
appearing in the bob config (none needs escaping). -/
def jsonStr (s : String) : String := "\"" ++ s ++ "\""

/-- JSON encoding of a string array. -/
def jsonStrArray (xs : List String) : String :=
  "[" ++ String.intercalate "," (xs.map jsonStr) ++ "]"

/-- `JSON.stringify(currentBobConfig)` (src/unnamed/part_013 lines 198-220 and
321-329): `DEFAULT_BOB_CONFIG` spread with the `p2p-node` and `trusted-node`
peer lists (filtered by scheme and trimmed); key order is the default
object's insertion order. -/
def bobConfigJson (peers : List String) : String :=
  let p2p := (peers.filter (fun p => !p.data.isEmpty && JsStr.jsStartsWith p "bob:")).map
    JsStr.jsTrim
  let trusted := (peers.filter (fun p => !p.data.isEmpty && JsStr.jsStartsWith p "BM:")).map
    JsStr.jsTrim
  "\x7b\"p2p-node\":" ++ jsonStrArray p2p ++
    ",\"trusted-node\":" ++ jsonStrArray trusted ++
    ",\"request-cycle-ms\":500,\"request-logging-cycle-ms\":150,\"future-offset\":3," ++
    "\"log-level\":\"info\",\"keydb-url\":\"tcp://127.0.0.1:6379\",\"run-server\":true," ++
    "\"server-port\":21842,\"arbitrator-identity\":\"AFZPUAIYVPNUYGJRQVLUKOPPVLHAZQTGLYAAUUNBXFTVTAMSBKQBLEIEPCVJ\"," ++
    "\"trusted-entities\":[\"QCTBOBEPDEZGBBCSOWGBYCAIZESDMEVRGLWVNBZAPBIZYEJFFZSPPIVGSCVL\"]," ++
    "\"node-seed\":\"aaaaaaaaaaaaaaaaaaaaaaaaaaaaaaaaaaaaaaaaaaaaaaaaaaaaaaa\"," ++
    "\"is-trusted-node\":true,\"tick-storage-mode\":\"free\",\"max-thread\":16," ++
    "\"spam-qu-threshold\":100\x7d"

/-- `getBobNodeSetupScripts` of the newest revision
(src/unnamed/part_013 lines 281-352). -/
def getBobNodeSetupScriptsNew (binaryUrl epochFile : String) (peers : List String)
    (isRestart : Bool) (systemRamInGB : Int) : List String :=
  let binaryName := getBasenameFromUrl binaryUrl
  if isRestart then
    [ "cd ~",
      "cd qbob",
      "CURRENT_BINARY=$(cat binary_name.txt)",
      keydbScreenCommand systemRamInGB,
      keydbWaitCommand,
      bobScreenCommand ]
  else
    [ "date",
      "cd ~",
      "rm -rf qbob",
      "rm -rf /data/flash/db/*",
      "mkdir -p /data/flash/db",
      "mkdir -p qbob",
      "cd qbob",
      "wget " ++ binaryUrl,
      "chmod +x ./" ++ binaryName,
      "wget " ++ epochFile,
      getUnzipCommandFromUrl epochFile,
      "echo \x27" ++ bobConfigJson peers ++ "\x27 > bob_config.json",
      "jq . bob_config.json > temp_config.json && mv temp_config.json bob_config.json",
      "echo \"" ++ binaryName ++ "\" > binary_name.txt",
      "CURRENT_BINARY=$(cat binary_name.txt)",
      keydbScreenCommand systemRamInGB,
      keydbWaitCommand,
      bobScreenCommand ]

/-- The service kind enum `MongoDbTypes.ServiceType`
(src/unnamed/part_010 lines 74-78); its `null` member is `nullService`
here. -/
inductive ServiceType
  | LiteNode
  | BobNode
  | nullService
  deriving DecidableEq

/-- `getShutdownCommands` of the newest revision
(src/unnamed/part_013 lines 354-379). -/
def getShutdownCommandsNew (type : ServiceType) (killDb : Bool) : List String :=
  match type with
  | ServiceType.LiteNode =>
    [ "for s in $(screen -ls | awk \x27/" ++ LITE_SCREEN_NAME ++
        "/ \x7bprint $1\x7d\x27); do screen -S \"$s\" -X quit; done",
      "[ -d ~/qlite ] && [ -f ~/qlite/binary_name.txt ] && cd ~ && cd qlite && LITE_BINARY_NAME=$(cat binary_name.txt) && while pgrep -x $LITE_BINARY_NAME >/dev/null; do \x7b echo \"Waiting for litenode to be shutdown...\"; sleep 1; \x7d; done",
      "echo \"Debug: LITE_BINARY_NAME=$LITE_BINARY_NAME\"" ]
  | ServiceType.BobNode =>
    let killDbCommands :=
      [ "pkill -9 keydb-server || true",
        "for s in $(screen -ls | awk \x27/keydb/ \x7bprint $1\x7d\x27); do screen -S \"$s\" -X quit || true; done",
        "while pgrep -x keydb-server >/dev/null; do \x7b echo \"Waiting for keydb to be shutdown...\"; sleep 1; \x7d; done" ]
    [ "for s in $(screen -ls | awk \x27/" ++ BOB_SCREEN_NAME ++
        "/ \x7bprint $1\x7d\x27); do screen -S \"$s\" -X quit || true; done",
      "[ -d ~/qbob ] && [ -f ~/qbob/binary_name.txt ] && cd ~ && cd qbob && BOB_BINARY_NAME=$(cat binary_name.txt) && while pgrep -x $BOB_BINARY_NAME >/dev/null; do \x7b echo \"Waiting for bobnode to be shutdown...\"; sleep 1; \x7d; done" ] ++
    (if killDb then killDbCommands else []) ++
    [ "echo \"Debug: BOB_BINARY_NAME=$BOB_BINARY_NAME\"" ]
  | ServiceType.nullService => []

/-- `getShutdownCommands` of the older revision
(src/src/services/ssh-service.ts lines 78-90). -/
def getShutdownCommandsOld (type : ServiceType) : List String :=
  match type with
  | ServiceType.LiteNode =>
    [ "for s in $(screen -ls | awk \x27/" ++ LITE_SCREEN_NAME ++
        "/ \x7bprint $1\x7d\x27); do screen -S \"$s\" -X quit; done" ]
  | ServiceType.BobNode =>
    [ "for s in $(screen -ls | awk \x27/" ++ BOB_SCREEN_NAME ++
        "/ \x7bprint $1\x7d\x27); do screen -S \"$s\" -X quit; done" ]
  | ServiceType.nullService => []

/-- `getLiteNodeSetupScripts` of the older revision
(src/src/services/ssh-service.ts lines 30-68). -/
def getLiteNodeSetupScriptsOld (binaryUrl epochFile : String) (peers : List String)
    (isRestart : Bool) : List String :=
  if isRestart then
    [ "cd qlite",
      "CURRENT_PEERS=$(cat peers.txt)",
      "CURRENT_BINARY=$(cat binary_name.txt)",
      "screen -dmS qubic bash -lc \"./$CURRENT_BINARY -s 32 --peers $CURRENT_PEERS\"" ]
  else
    let peersString := String.intercalate "," peers
    let binaryName := getBasenameFromUrl binaryUrl
    [ "rm -rf qlite",
      "mkdir -p qlite",
      "cd qlite",
      "wget " ++ binaryUrl,
      "chmod +x ./" ++ binaryName,
      "wget " ++ epochFile,
      getUnzipCommandFromUrl epochFile,
      "echo \"" ++ peersString ++ "\" > peers.txt",
      "echo \"" ++ binaryName ++ "\" > binary_name.txt",
      "CURRENT_PEERS=$(cat peers.txt)",
      "CURRENT_BINARY=$(cat binary_name.txt)",
      "screen -dmS qubic bash -lc \"./$CURRENT_BINARY -s 32 --peers $CURRENT_PEERS\"" ]

/-- `getBobNodeSetupScripts` of the older revision
(src/src/services/ssh-service.ts lines 70-76). -/
def getBobNodeSetupScriptsOld (binaryUrl : String) : List String :=
  [ "mkdir -p qubic-bob && cd qubic-bob",
    "wget " ++ binaryUrl,
    "chmod +x QubicBob" ]

/-! `deployNode`.  The newest revision (src/unnamed/part_013 lines 574-674)
builds shutdown-with-kill-db plus fresh-setup commands, looks the server up,
marks its deploy status `setting_up` and calls `executeCommands`; it performs
no check of the pre-existing deploy status.  The older revision
(src/src/services/ssh-service.ts lines 224-329) additionally rejects when the
persisted deploy status of the requested kind is already `"setting_up"`,
before any SSH command is issued. -/

/-- The `deployStatus` sub-document of a server record
(src/unnamed/part_010 lines 96-99). -/
structure DeployStatus where
  liteNode : Option String
  bobNode : Option String
  deriving DecidableEq

/-- The fields of a `MongoDbTypes.Server` document that `deployNode`'s control
flow reads (src/unnamed/part_010 lines 80-109). -/
structure ServerDoc where
  deployStatus : Option DeployStatus
  deriving DecidableEq

/-- The result value `deployNode` hands back when it rejects:
`stdouts`/`stderrs` empty, `isSuccess` false. -/
structure ExecResultShape where
  stdouts : List (String × String)
  stderrs : List (String × String)
  isSuccess : Bool
  deriving DecidableEq

/-- The `returnFailedObject` of `deployNode` (src/unnamed/part_013
lines 592-602; the older revision returns the same shape inline). -/
def failedResult : ExecResultShape :=
  { stdouts := [], stderrs := [], isSuccess := false }

/-- How a `deployNode` call ends: rejected with a failed result before any
SSH command is issued, or proceeding to `executeCommands` with the built
command list (in the source the deploy status is persisted as `setting_up`
just before the `executeCommands` call). -/
inductive DeployNodeAction
  | rejected (r : ExecResultShape)
  | execute (commands : List String)
  deriving DecidableEq

/-- `deployNode` of the newest revision (src/unnamed/part_013 lines 574-674):
build commands, reject unknown kinds and unknown servers, then — without
checking the persisted deploy status — mark `setting_up` and execute. -/
def deployNodeNew (doc : Option ServerDoc) (type : ServiceType)
    (binaryUrl epochFile : String) (peers : List String) (systemRamInGB : Int) :
    DeployNodeAction :=
  match type with
  | ServiceType.nullService => DeployNodeAction.rejected failedResult
  | _ =>
    let setup := match type with
      | ServiceType.LiteNode => getLiteNodeSetupScriptsNew binaryUrl epochFile peers false
      | _ => getBobNodeSetupScriptsNew binaryUrl epochFile peers false systemRamInGB
    let commands := getShutdownCommandsNew type true ++ setup
    match doc with
    | none => DeployNodeAction.rejected failedResult
    | some _ => DeployNodeAction.execute commands

/-- `deployNode` of the older revision (src/src/services/ssh-service.ts
lines 224-329): as above but with the two `setting_up` guards of
lines 273-293, evaluated after the server lookup and before the status write
and the `executeCommands` call. -/
def deployNodeOld (doc : Option ServerDoc) (type : ServiceType)
    (binaryUrl epochFile : String) (peers : List String) : DeployNodeAction :=
  match type with
  | ServiceType.nullService => DeployNodeAction.rejected failedResult
  | _ =>
    let setup := match type with
      | ServiceType.LiteNode => getLiteNodeSetupScriptsOld binaryUrl epochFile peers false
      | _ => getBobNodeSetupScriptsOld binaryUrl
    let commands := getShutdownCommandsOld type ++ setup
    match doc with
    | none => DeployNodeAction.rejected failedResult
    | some d =>
      if d.deployStatus.bind DeployStatus.liteNode = some "setting_up" ∧
          type = ServiceType.LiteNode then
        DeployNodeAction.rejected failedResult
      else if d.deployStatus.bind DeployStatus.bobNode = some "setting_up" ∧
          type = ServiceType.BobNode then
        DeployNodeAction.rejected failedResult
      else
        DeployNodeAction.execute commands

end SSHService

namespace NodeService

open SSHService (jsOrInt jsOptOrInt)

/-- JS `o?.f || d` on strings: `undefined` and `""` are falsy. -/
def jsOptOrStr (o : Option String) (d : String) : String :=
  match o with
  | none => d
  | some s => if s.data.isEmpty then d else s

/-- `isNodeActive` (src/src/utils/ip.ts lines 157-160), with `Date.now()`
passed explicitly: the node is active when its tick changed within the last
two minutes. -/
def isNodeActive (now lastTickChanged : Int) : Bool :=
  now - lastTickChanged < 2 * 60 * 1000

/-- A registered lite node document, `MongoDbTypes.LiteNode`
(src/unnamed/part_010 lines 42-49). -/
structure LiteNode where
  server : String
  operator : Option String
  groupId : Option String
  isPrivate : Bool
  passcode : Option String
  deriving DecidableEq

/-- A registered bob node document, `MongoDbTypes.BobNode`
(src/unnamed/part_010 lines 51-55). -/
structure BobNode where
  server : String
  operator : Option String
  isPrivate : Bool
  deriving DecidableEq

/-- The probe result of `getLiteNodeTickInfo`
(src/src/services/node-service.ts second document; on any fetch failure every
numeric field is `-1`). -/
structure LiteTickInfo where
  tick : Int
  initialTick : Int
  epoch : Int
  alignedVotes : Int
  misalignedVotes : Int
  mainAuxStatus : Int
  isSavingSnapshot : Bool
  deriving DecidableEq

/-- The probe result of `getBobNodeTickInfo`. -/
structure BobTickInfo where
  currentProcessingEpoch : Int
  currentFetchingTick : Int
  currentFetchingLogTick : Int
  currentVerifyLoggingTick : Int
  currentIndexingTick : Int
  initialTick : Int
  bobVersion : Option String
  deriving DecidableEq

/-- An entry of `_status.liteServers` (the `ipInfo` geo sub-object, which the
poller only copies from an external cache, is omitted). -/
structure LiteEntry where
  operator : String
  tick : Int
  initialTick : Int
  epoch : Int
  alignedVotes : Int
  misalignedVotes : Int
  mainAuxStatus : Int
  groupId : String
  isSavingSnapshot : Bool
  lastUpdated : Int
  lastTickChanged : Int
  deriving DecidableEq

/-- An entry of `_status.bobServers`. -/
structure BobEntry where
  operator : String
  currentProcessingEpoch : Int
  currentFetchingTick : Int
  currentFetchingLogTick : Int
  currentVerifyLoggingTick : Int
  currentIndexingTick : Int
  initialTick : Int
  lastUpdated : Int
  lastTickChanged : Int
  bobVersion : String
  deriving DecidableEq

/-- One poll-cycle update of a lite node's status entry
(src/src/services/node-service.ts lines 526-556 of the second document):
executed only when the probe succeeded (`tick !== -1`) or no entry exists yet;
`oldTick` is `serverObject?.tick || -1`, `lastUpdated` advances only on a
successful probe, `lastTickChanged` advances exactly when `oldTick` differs
from the reported tick. -/
def updateLiteEntry (old : Option LiteEntry) (t : LiteTickInfo) (node : LiteNode)
    (now : Int) : Option LiteEntry :=
  if t.tick ≠ -1 ∨ old = none then
    let oldTick := jsOptOrInt (old.map LiteEntry.tick) (-1)
    some
      { operator := jsOptOrStr node.operator "unknown",
        tick := t.tick,
        initialTick := t.initialTick,
        epoch := t.epoch,
        alignedVotes := t.alignedVotes,
        misalignedVotes := t.misalignedVotes,
        mainAuxStatus := t.mainAuxStatus,
        groupId := jsOptOrStr node.groupId "",
        isSavingSnapshot := t.isSavingSnapshot,
        lastUpdated :=
          if t.tick ≠ -1 then now else jsOptOrInt (old.map LiteEntry.lastUpdated) (-1),
        lastTickChanged :=
          if oldTick ≠ t.tick then now
          else jsOptOrInt (old.map LiteEntry.lastTickChanged) (-1) }
  else old

/-- One poll-cycle update of a bob node's status entry
(src/src/services/node-service.ts lines 612-641 of the second document); the
liveness tick is `currentFetchingTick`. -/
def updateBobEntry (old : Option BobEntry) (t : BobTickInfo) (node : BobNode)
    (now : Int) : Option BobEntry :=
  if t.currentFetchingTick ≠ -1 ∨ old = none then
    let oldTick := jsOptOrInt (old.map BobEntry.currentFetchingTick) (-1)
    some
      { operator := jsOptOrStr node.operator "unknown",
        currentProcessingEpoch := t.currentProcessingEpoch,
        currentFetchingTick := t.currentFetchingTick,
        currentFetchingLogTick := t.currentFetchingLogTick,
        currentVerifyLoggingTick := t.currentVerifyLoggingTick,
        currentIndexingTick := t.currentIndexingTick,
        initialTick := t.initialTick,
        lastUpdated :=
          if t.currentFetchingTick ≠ -1 then now
          else jsOptOrInt (old.map BobEntry.lastUpdated) (-1),
        lastTickChanged :=
          if oldTick ≠ t.currentFetchingTick then now
          else jsOptOrInt (old.map BobEntry.lastTickChanged) (-1),
        bobVersion := jsOptOrStr t.bobVersion "unknown" }
  else old

/-- The prune pass at the top of each poll cycle
(src/src/services/node-service.ts lines 512-521 and 595-605 of the second
document): every status key whose server is missing from the registered-node
snapshot is deleted. -/
def pruneStatus {ε : Type} (status : List (String × ε)) (snapshot : List String) :
    List (String × ε) :=
  status.filter (fun p => snapshot.contains p.1)

/-- Association-list lookup standing for `_status.xServers[key]`. -/
def statusLookup {ε : Type} (status : List (String × ε)) (key : String) : Option ε :=
  (status.find? (fun p => p.1 == key)).map Prod.snd

/-- `checkIsCandidateNode` of `getRandomLiteNode`
(src/src/services/node-service.ts lines 734-747 of the second document):
active (its `lastTickChanged`, defaulted to 0 when absent, is within two
minutes of now) and, when a logging passcode is required, the passcode still
falsy or the default `0-0-0-0` after trimming. -/
def checkIsCandidateLite (status : List (String × LiteEntry)) (now : Int)
    (isNeedLoggingPasscode : Bool) (node : LiteNode) : Bool :=
  let active := isNodeActive now
    (jsOptOrInt ((statusLookup status node.server).map LiteEntry.lastTickChanged) 0)
  if isNeedLoggingPasscode then
    active &&
      (match node.passcode with
        | none => true
        | some p => p.data.isEmpty || JsStr.jsTrim p == "0-0-0-0")
  else active

/-- `checkIsCandidateNode` of `getRandomBobNode`
(src/src/services/node-service.ts lines 780-784 of the second document). -/
def checkIsCandidateBob (status : List (String × BobEntry)) (now : Int)
    (node : BobNode) : Bool :=
  isNodeActive now
    (jsOptOrInt ((statusLookup status node.server).map BobEntry.lastTickChanged) 0)

/-- The rejection-sampling loop shared by `getRandomLiteNode` and
`getRandomBobNode` (src/src/services/node-service.ts lines 756-766 and
793-803 of the second document): `stream` is the sequence of indices drawn by
`Math.floor(Math.random() * servers.length)`, `chosen` the indices selected
so far (`usedIndices` and `selectedServers` evolve in lockstep, so one list
captures both); an index is taken when it is fresh and its node satisfies the
candidate check.  `none` means the supplied randomness ran out before `n`
nodes were selected. -/
def selectLoop (cand : Nat → Bool) (n : Nat) : List Nat → List Nat → Option (List Nat)
  | [], chosen => if n ≤ chosen.length then some chosen else none
  | i :: rest, chosen =>
    if n ≤ chosen.length then some chosen
    else if i ∉ chosen ∧ cand i = true then selectLoop cand n rest (chosen ++ [i])
    else selectLoop cand n rest chosen

/-- The index-level candidate check `servers[randomIndex]!` composed with
`checkIsCandidateNode`. -/
def candAt {α : Type} (elig : α → Bool) (servers : List α) : Nat → Bool :=
  fun i =>
    match servers[i]? with
    | some s => elig s
    | none => false

/-- The body shared verbatim by `getRandomLiteNode` and `getRandomBobNode`
after their early return: count the candidate nodes, clamp `n` down to that
count, rejection-sample indices, and return the nodes at the selected
indices. -/
def pickRandomCore {α : Type} (elig : α → Bool) (n : Nat) (servers : List α)
    (stream : List Nat) : Option (List α) :=
  let numberOfActiveNodes := (servers.filter elig).length
  let nClamped := if numberOfActiveNodes < n then numberOfActiveNodes else n
  (selectLoop (candAt elig servers) nClamped stream []).map
    (fun idxs => idxs.filterMap (fun i => servers[i]?))

/-- `getRandomLiteNode` (src/src/services/node-service.ts lines 723-770 of the
second document): if `n` covers the whole pool, return the pool at once;
otherwise clamp `n` to the number of candidate nodes and rejection-sample. -/
def getRandomLiteNode (status : List (String × LiteEntry)) (now : Int)
    (n : Nat) (isNeedLoggingPasscode : Bool) (servers : List LiteNode)
    (stream : List Nat) : Option (List LiteNode) :=
  if servers.length ≤ n then some servers
  else pickRandomCore (checkIsCandidateLite status now isNeedLoggingPasscode) n servers stream

/-- `getRandomBobNode` (src/src/services/node-service.ts lines 772-807 of the
second document). -/
def getRandomBobNode (status : List (String × BobEntry)) (now : Int)
    (n : Nat) (servers : List BobNode) (stream : List Nat) : Option (List BobNode) :=
  if servers.length ≤ n then some servers
  else pickRandomCore (checkIsCandidateBob status now) n servers stream

/-- The indices of the candidate nodes, in position order. -/
def eligibleIndices {α : Type} (elig : α → Bool) (servers : List α) : List Nat :=
  (List.range servers.length).filter (candAt elig servers)

end NodeService

/-! # Theorems -/

/-- C8: for every `systemRamInGB` the bob setup script builder sizes the keydb
cache as `max(12, systemRamInGB − 40 − 6 − 2)` GB — 64GB of RAM yields 16GB,
50GB clamps to the 12GB minimum — and the computed value is interpolated into
the `keydb-server --maxmemory` launch command of the generated script (both
the fresh-install and the restart variant). -/
theorem bobNode_keydb_cache_sizing (ram : Int) (binaryUrl epochFile : String)
    (peers : List String) (isRestart : Bool) :
    SSHService.totalRamNeededForKeydbInGB ram = max 12 (ram - 40 - 6 - 2)
    ∧ SSHService.totalRamNeededForKeydbInGB 64 = 16
    ∧ SSHService.totalRamNeededForKeydbInGB 50 = 12
    ∧ SSHService.keydbScreenCommand ram ∈
        SSHService.getBobNodeSetupScriptsNew binaryUrl epochFile peers isRestart ram
    ∧ SSHService.keydbScreenCommand 64 =
        "screen -dmS keydb bash -lc \"keydb-server --maxmemory 16G --maxmemory-policy allkeys-lru\"" := by
  refine ⟨?_, by decide, by decide, ?_, by decide⟩
  · have h : SSHService.totalRamNeededForKeydbInGB ram
        = if ram - 40 - 6 - 2 < 12 then 12 else ram - 40 - 6 - 2 := rfl
    rw [h]; split <;> omega
  · cases isRestart <;> simp [SSHService.getBobNodeSetupScriptsNew]

/-- C5 counterexample: `exec 2>&1` is claimed to be absent from the commands
executed in non-interactive mode, but for the input `["ls"]` the executed
exec-channel command list is `["exec 2>&1", "ls"]` — the unshift at line 710
of src/unnamed/part_013 runs before the interactive/non-interactive branch. -/
theorem exec_redirect_in_nonInteractive_counterexample :
    "exec 2>&1" ∈ SSHService.nonInteractiveCommands ["ls"]
    ∧ SSHService.nonInteractiveCommands ["ls"] = ["exec 2>&1", "ls"] := by
  constructor <;> decide

/-- C5 (amended): `exec 2>&1` is prepended unconditionally on every call to
`executeCommands`: it heads the command list executed in non-interactive mode
(where it runs as its own exec channel) and is likewise contained in the
interactive command sequence. -/
theorem exec_redirect_prepended_on_every_path (cs : List String) :
    (SSHService.nonInteractiveCommands cs).head? = some "exec 2>&1"
    ∧ "exec 2>&1" ∈ SSHService.nonInteractiveCommands cs
    ∧ "exec 2>&1" ∈ SSHService.interactiveCommands cs := by
  refine ⟨rfl, ?_, ?_⟩ <;>
    simp [SSHService.nonInteractiveCommands, SSHService.interactiveCommands,
      SSHService.commandsAfterLine711, SSHService.jsUnshift, SSHService.jsPush]

/-- C10: `executeCommands` mutates the caller's `commands` array in place:
after the call the array holds `exec 2>&1` prepended, and on the interactive
path additionally `set -e` and the sentinel assignment prepended and the
sentinel echo appended — in particular the array never equals the list the
caller passed. -/
theorem executeCommands_mutates_caller_array (cs : List String) :
    SSHService.nonInteractiveCommands cs = "exec 2>&1" :: cs
    ∧ SSHService.interactiveCommands cs =
        SSHService.qdoneAssignment :: "set -e" :: "exec 2>&1" ::
          (cs ++ [SSHService.sentinelEcho])
    ∧ SSHService.nonInteractiveCommands cs ≠ cs
    ∧ SSHService.interactiveCommands cs ≠ cs := by
  refine ⟨rfl, rfl, fun h => ?_, fun h => ?_⟩
  · have hl := congrArg List.length h
    simp only [SSHService.nonInteractiveCommands, SSHService.commandsAfterLine711,
      SSHService.jsUnshift, List.length_cons] at hl
    omega
  · have hl := congrArg List.length h
    simp only [SSHService.interactiveCommands, SSHService.commandsAfterLine711,
      SSHService.jsUnshift, SSHService.jsPush, List.length_cons, List.length_append,
      List.length_nil] at hl
    omega

/-- C9: the code is expected to drop blank and comment lines from an
externally supplied command list before execution, but
`commands.filter(...)` at line 711 of src/unnamed/part_013 discards its
return value (`Array.prototype.filter` does not mutate), so for the input
`["# deploy step", "", "ls"]` both the comment and the blank line are still
among the executed exec-channel commands, in the interactive command
sequence, and in the bytes written to the shell.  The discarded filter value
and `inlineBashCommands` (which does apply the same predicate) show the
intended behaviour. -/
theorem comment_and_blank_lines_reach_execution :
    "# deploy step" ∈ SSHService.nonInteractiveCommands ["# deploy step", "", "ls"]
    ∧ "" ∈ SSHService.nonInteractiveCommands ["# deploy step", "", "ls"]
    ∧ "# deploy step" ∈ SSHService.interactiveCommands ["# deploy step", "", "ls"]
    ∧ SSHService.filteredCommands
        (SSHService.nonInteractiveCommands ["# deploy step", "", "ls"])
        = ["exec 2>&1", "ls"]
    ∧ SSHService.inlineBashCommands ["# deploy step", "", "ls"] = "ls"
    ∧ JsStr.jsIncludes
        (SSHService.writtenToShell ["# deploy step", "", "ls"]) "# deploy step" = true := by
  refine ⟨by decide, by decide, by decide, by decide, by decide, by decide⟩

/-- C4 counterexample: in the newest revision
(src/unnamed/part_013 lines 574-674), calling `deployNode` for a host whose
persisted lite deploy status is already `"setting_up"` does not return a
failed result — it proceeds to `executeCommands` with the full
shutdown-plus-setup command list. -/
theorem deployNode_newest_skips_setting_up_guard :
    SSHService.deployNodeNew
        (some { deployStatus := some { liteNode := some "setting_up", bobNode := none } })
        SSHService.ServiceType.LiteNode "http://h/Qubic" "http://h/e.zip" [] 64
      = SSHService.DeployNodeAction.execute
          (SSHService.getShutdownCommandsNew SSHService.ServiceType.LiteNode true ++
            SSHService.getLiteNodeSetupScriptsNew "http://h/Qubic" "http://h/e.zip" [] false)
    ∧ SSHService.deployNodeNew
        (some { deployStatus := some { liteNode := some "setting_up", bobNode := none } })
        SSHService.ServiceType.LiteNode "http://h/Qubic" "http://h/e.zip" [] 64
      ≠ SSHService.DeployNodeAction.rejected SSHService.failedResult := by
  refine ⟨rfl, fun h => ?_⟩
  have h1 : SSHService.deployNodeNew
      (some { deployStatus := some { liteNode := some "setting_up", bobNode := none } })
      SSHService.ServiceType.LiteNode "http://h/Qubic" "http://h/e.zip" [] 64
      = SSHService.DeployNodeAction.execute
        (SSHService.getShutdownCommandsNew SSHService.ServiceType.LiteNode true ++
          SSHService.getLiteNodeSetupScriptsNew "http://h/Qubic" "http://h/e.zip" [] false) := rfl
  rw [h1] at h
  exact SSHService.DeployNodeAction.noConfusion h

/-- C4 (amended): the older `deployNode` revision
(src/src/services/ssh-service.ts lines 224-329) does implement the guard: for
every server document whose persisted deploy status of the requested kind is
already `"setting_up"`, the call is rejected with the failed result
(`isSuccess` false, empty stdout/stderr maps) before any SSH command is
issued; the newest revision omits this check. -/
theorem deployNode_old_rejects_while_setting_up (d : SSHService.ServerDoc)
    (binaryUrl epochFile : String) (peers : List String) :
    (d.deployStatus.bind SSHService.DeployStatus.liteNode = some "setting_up" →
      SSHService.deployNodeOld (some d) SSHService.ServiceType.LiteNode binaryUrl epochFile peers
        = SSHService.DeployNodeAction.rejected SSHService.failedResult)
    ∧ (d.deployStatus.bind SSHService.DeployStatus.bobNode = some "setting_up" →
      SSHService.deployNodeOld (some d) SSHService.ServiceType.BobNode binaryUrl epochFile peers
        = SSHService.DeployNodeAction.rejected SSHService.failedResult)
    ∧ SSHService.failedResult.isSuccess = false
    ∧ SSHService.failedResult.stdouts = []
    ∧ SSHService.failedResult.stderrs = [] := by
  refine ⟨fun h => ?_, fun h => ?_, rfl, rfl, rfl⟩
  · simp only [SSHService.deployNodeOld]
    split_ifs
    all_goals try rfl
    all_goals exact absurd (And.intro h trivial) (by assumption)
  · simp only [SSHService.deployNodeOld]
    split_ifs
    all_goals try rfl
    all_goals exact absurd (And.intro h trivial) (by assumption)

/-- C4 witness: a concrete server document with lite status `"setting_up"` is
rejected by the older `deployNode`. -/
theorem deployNode_old_rejects_witness :
    SSHService.deployNodeOld
        (some { deployStatus := some { liteNode := some "setting_up", bobNode := none } })
        SSHService.ServiceType.LiteNode "u" "e" []
      = SSHService.DeployNodeAction.rejected SSHService.failedResult :=
  (deployNode_old_rejects_while_setting_up
    { deployStatus := some { liteNode := some "setting_up", bobNode := none } }
    "u" "e" []).1 rfl

/-- Concatenation of a list of strings, structurally recursive so the kernel
can evaluate it. -/
def strConcat : List String → String
  | [] => ""
  | s :: rest => s ++ strConcat rest

theorem interactiveOutcome_chunks_close (chunks : List String) (flag : Bool) :
    SSHService.interactiveOutcome
        (chunks.map SSHService.SessionEvent.data ++ [SSHService.SessionEvent.closed]) flag
      = some (flag ||
          chunks.any (fun c => JsStr.jsIncludes c SSHService.expectedDoneSignalStr)) := by
  induction chunks generalizing flag with
  | nil => simp [SSHService.interactiveOutcome]
  | cons c rest ih =>
    simp [SSHService.interactiveOutcome, ih, Bool.or_assoc]

/-- C1: on the interactive path, the `isSuccess` the call settles on when the
shell channel closes after delivering the given data chunks is exactly
whether some chunk contained the sentinel marker `GETHERE@qdone_signal`; in
particular a close without the sentinel yields `isSuccess = false` no matter
what the chunks contained. -/
theorem interactive_isSuccess_iff_sentinel_observed (chunks : List String) :
    SSHService.interactiveOutcome
        (chunks.map SSHService.SessionEvent.data ++ [SSHService.SessionEvent.closed]) false
      = some (chunks.any (fun c => JsStr.jsIncludes c SSHService.expectedDoneSignalStr))
    ∧ (SSHService.interactiveOutcome
          (chunks.map SSHService.SessionEvent.data ++ [SSHService.SessionEvent.closed]) false
        = some true
      ↔ ∃ c ∈ chunks, JsStr.jsIncludes c SSHService.expectedDoneSignalStr = true) := by
  have h := interactiveOutcome_chunks_close chunks false
  rw [Bool.false_or] at h
  refine ⟨h, ?_⟩
  rw [h]
  simp [List.any_eq_true]

theorem chunkFold_apply (f : String → String) (key : String) (chunks : List String)
    (m : SSHService.StrMap) (x : String) :
    (chunks.foldl (fun m c => SSHService.strMapAppend m key (f c)) m) x
      = if x = key then m x ++ strConcat (chunks.map f) else m x := by
  induction chunks generalizing m with
  | nil =>
    simp only [List.foldl_nil, List.map_nil, strConcat]
    split <;> simp
  | cons c cs ih =>
    simp only [List.foldl_cons, ih, List.map_cons, strConcat]
    by_cases h : x = key
    · subst h
      simp [SSHService.strMapAppend, String.append_assoc]
    · simp [SSHService.strMapAppend, h]

theorem jobsFold_apply (f : String → String)
    (proj : SSHService.ExecChannelResult → List String)
    (jobs : List (String × SSHService.ExecChannelResult)) (m : SSHService.StrMap)
    (x : String) :
    (jobs.foldl
        (fun m j => (proj j.2).foldl (fun m c => SSHService.strMapAppend m j.1 (f c)) m) m) x
      = m x ++ strConcat ((jobs.filter (fun j => j.1 == x)).map
          (fun j => strConcat ((proj j.2).map f))) := by
  induction jobs generalizing m with
  | nil => simp [strConcat]
  | cons j js ih =>
    simp only [List.foldl_cons, ih, chunkFold_apply, List.filter_cons]
    by_cases h : x = j.1
    · subst h
      simp [strConcat, String.append_assoc]
    · have hb : (j.1 == x) = false := by
        simp only [beq_eq_false_iff_ne]
        exact fun he => h he.symm
      simp only [if_neg h, hb]
      simp

theorem successFold (jobs : List (String × SSHService.ExecChannelResult)) (b : Bool) :
    jobs.foldl (fun b j => if j.2.exitCode ≠ 0 then false else b) b
      = (b && jobs.all (fun j => j.2.exitCode == 0)) := by
  induction jobs generalizing b with
  | nil => simp
  | cons j js ih =>
    simp only [List.foldl_cons, List.all_cons, ih]
    by_cases h : j.2.exitCode = 0
    · simp [h]
    · simp [h, ih]

/-- C3: in non-interactive mode, `isSuccess` is true exactly when every exec
channel closed with exit code zero (the logical AND over all executed
commands), and each executed command's stdout and stderr chunks are
accumulated, in order, in the result maps under the literal command string as
key. -/
theorem nonInteractive_success_and_buckets (f : String → String)
    (jobs : List (String × SSHService.ExecChannelResult)) :
    ((SSHService.runNonInteractive f jobs).isSuccess = true
      ↔ ∀ j ∈ jobs, j.2.exitCode = 0)
    ∧ (∀ k, (SSHService.runNonInteractive f jobs).stdouts k
        = strConcat ((jobs.filter (fun j => j.1 == k)).map
            (fun j => strConcat (j.2.stdoutChunks.map f))))
    ∧ (∀ k, (SSHService.runNonInteractive f jobs).stderrs k
        = strConcat ((jobs.filter (fun j => j.1 == k)).map
            (fun j => strConcat (j.2.stderrChunks.map f)))) := by
  refine ⟨?_, fun k => ?_, fun k => ?_⟩
  · show (jobs.foldl (fun b j => if j.2.exitCode ≠ 0 then false else b) true) = true ↔ _
    rw [successFold]
    simp [List.all_eq_true]
  · have h := jobsFold_apply f (fun e => e.stdoutChunks) jobs SSHService.emptyStrMap k
    simpa [SSHService.emptyStrMap] using h
  · have h := jobsFold_apply f (fun e => e.stderrChunks) jobs SSHService.emptyStrMap k
    simpa [SSHService.emptyStrMap] using h

theorem lockInvariant_init (n : Nat) : SSHService.lockInvariant (SSHService.initLockSystem n) := by
  constructor
  · intro i h
    exact absurd h (by simp [SSHService.initLockSystem])
  · intro i j hi _
    exact absurd hi (by simp [SSHService.initLockSystem])

theorem lockInvariant_step {n : Nat} {s t : SSHService.LockSystem n}
    (hstep : SSHService.LockStep s t) (hinv : SSHService.lockInvariant s) :
    SSHService.lockInvariant t := by
  obtain ⟨h1, h2⟩ := hinv
  cases hstep with
  | invoke i hphase =>
    constructor
    · intro j hj
      simp only [Function.update_apply] at hj
      by_cases hji : j = i
      · rw [if_pos hji] at hj
        exact absurd hj (by simp)
      · rw [if_neg hji] at hj
        exact h1 j hj
    · intro j k hj hk
      simp only [Function.update_apply] at hj hk
      by_cases hji : j = i
      · rw [if_pos hji] at hj
        exact absurd hj (by simp)
      · rw [if_neg hji] at hj
        by_cases hki : k = i
        · rw [if_pos hki] at hk
          exact absurd hk (by simp)
        · rw [if_neg hki] at hk
          exact h2 j k hj hk
  | poll i hphase hflag => exact ⟨h1, h2⟩
  | acquire i hphase hflag =>
    constructor
    · intro j _
      rfl
    · intro j k hj hk
      simp only [Function.update_apply] at hj hk
      by_cases hji : j = i
      · by_cases hki : k = i
        · rw [hji, hki]
        · rw [if_neg hki] at hk
          exact absurd (h1 k hk) (by simp [hflag])
      · rw [if_neg hji] at hj
        exact absurd (h1 j hj) (by simp [hflag])
  | release i hphase =>
    constructor
    · intro j hj
      simp only [Function.update_apply] at hj
      by_cases hji : j = i
      · rw [if_pos hji] at hj
        exact absurd hj (by simp)
      · rw [if_neg hji] at hj
        exact absurd (h2 j i hj hphase) hji
    · intro j k hj hk
      simp only [Function.update_apply] at hj hk
      by_cases hji : j = i
      · rw [if_pos hji] at hj
        exact absurd hj (by simp)
      · rw [if_neg hji] at hj
        exact absurd (h2 j i hj hphase) hji

theorem lockInvariant_reachable {n : Nat} {s : SSHService.LockSystem n}
    (h : SSHService.LockReachable s) : SSHService.lockInvariant s := by
  induction h with
  | init => exact lockInvariant_init n
  | step _ hstep ih => exact lockInvariant_step hstep ih

/-- C2: the per-host execution lock serialises `executeCommands`: in every
reachable interleaving of concurrent callers for one host, at most one caller
is inside the locked section at a time (a second caller iterates the poll
transition, one 100ms sleep per iteration, until the flag clears), and the
lock map `executeCommands` leaves behind has the host's flag cleared for
every outcome of the body — success, failure, timeout or caught exception —
while other hosts' flags are untouched. -/
theorem host_execution_lock_exclusive (n : Nat) (s : SSHService.LockSystem n)
    (h : SSHService.LockReachable s) :
    (∀ i j, s.phase i = SSHService.CallerPhase.running →
        s.phase j = SSHService.CallerPhase.running → i = j)
    ∧ (∀ (locks : String → Bool) (host : String) (o : SSHService.ExecOutcome),
        SSHService.executeCommandsLockAfter locks host o host = false
        ∧ ∀ host2, host2 ≠ host →
            SSHService.executeCommandsLockAfter locks host o host2 = locks host2)
    ∧ SSHService.pollIntervalMs = 100 := by
  refine ⟨(lockInvariant_reachable h).2, fun locks host o => ⟨?_, fun host2 hne => ?_⟩, rfl⟩
  · cases o <;>
      simp [SSHService.executeCommandsLockAfter, SSHService.releaseLockState,
        SSHService.acquireLockState]
  · cases o <;>
      simp [SSHService.executeCommandsLockAfter, SSHService.releaseLockState,
        SSHService.acquireLockState, Function.update_apply, hne]

/-- C2 witness: the theorem applied to a concrete reachable state — one caller
invoked `executeCommands` and acquired the lock. -/
theorem host_execution_lock_exclusive_witness : SSHService.pollIntervalMs = 100 :=
  (host_execution_lock_exclusive 1 _
    (SSHService.LockReachable.step
      (SSHService.LockReachable.step SSHService.LockReachable.init
        (SSHService.LockStep.invoke _ 0 rfl))
      (SSHService.LockStep.acquire _ 0 (by simp) rfl))).2.2

/-- The stored status entry of the C7 counterexample: its tick is 0, which JS
`serverObject?.tick || -1` coerces to −1. -/
def zeroTickEntry : NodeService.LiteEntry :=
  { operator := "op", tick := 0, initialTick := 0, epoch := 1, alignedVotes := 0,
    misalignedVotes := 0, mainAuxStatus := 0, groupId := "", isSavingSnapshot := false,
    lastUpdated := 50, lastTickChanged := 5 }

/-- A successful probe reporting tick 0 again (unchanged). -/
def zeroTickProbe : NodeService.LiteTickInfo :=
  { tick := 0, initialTick := 0, epoch := 1, alignedVotes := 0, misalignedVotes := 0,
    mainAuxStatus := 0, isSavingSnapshot := false }

/-- A registered lite node document with no optional fields set. -/
def plainLiteNode : NodeService.LiteNode :=
  { server := "s", operator := none, groupId := none, isPrivate := false, passcode := none }

/-- C7 counterexample: a successful probe that reports tick 0 while the stored
tick is also 0 — i.e. the tick is unchanged — nevertheless advances
`lastTickChanged` to the poll timestamp (99) instead of leaving it at its
stored value (5), because `serverObject?.tick || -1` coerces the stored 0 to
−1 before the comparison. -/
theorem lastTickChanged_advances_on_unchanged_tick_counterexample :
    zeroTickProbe.tick ≠ -1
    ∧ zeroTickProbe.tick = zeroTickEntry.tick
    ∧ (NodeService.updateLiteEntry (some zeroTickEntry) zeroTickProbe plainLiteNode 99).map
        NodeService.LiteEntry.lastTickChanged = some 99
    ∧ (NodeService.updateLiteEntry (some zeroTickEntry) zeroTickProbe plainLiteNode 99).map
        NodeService.LiteEntry.lastTickChanged ≠ some zeroTickEntry.lastTickChanged := by
  refine ⟨by decide, by decide, by decide, by decide⟩

theorem statusLookup_prune {ε : Type} (status : List (String × ε)) (snapshot : List String)
    (server : String) :
    NodeService.statusLookup (NodeService.pruneStatus status snapshot) server
      = if snapshot.contains server then NodeService.statusLookup status server
        else none := by
  induction status with
  | nil =>
    simp only [NodeService.pruneStatus, List.filter_nil, NodeService.statusLookup,
      List.find?_nil, Option.map_none]
    split <;> rfl
  | cons p rest ih =>
    simp only [NodeService.pruneStatus, List.filter_cons] at *
    by_cases hp : p.1 = server
    · by_cases hmem : snapshot.contains server = true
      · rw [if_pos hmem]
        have hk : snapshot.contains p.1 = true := by rw [hp]; exact hmem
        rw [if_pos hk]
        simp [NodeService.statusLookup, List.find?_cons, hp]
      · rw [if_neg hmem]
        have hk : ¬ snapshot.contains p.1 = true := by rw [hp]; exact hmem
        rw [if_neg hk, ih, if_neg hmem]
    · have hbeq : (p.1 == server) = false := by simp [hp]
      by_cases hk : snapshot.contains p.1 = true
      · rw [if_pos hk]
        have hhead : NodeService.statusLookup
            (p :: List.filter (fun q => snapshot.contains q.1) rest) server
            = NodeService.statusLookup (List.filter (fun q => snapshot.contains q.1) rest)
                server := by
          simp [NodeService.statusLookup, List.find?_cons, hbeq]
        rw [hhead, ih]
        by_cases hmem : snapshot.contains server = true
        · rw [if_pos hmem, if_pos hmem]
          simp [NodeService.statusLookup, List.find?_cons, hbeq]
        · rw [if_neg hmem, if_neg hmem]
      · rw [if_neg hk, ih]
        by_cases hmem : snapshot.contains server = true
        · rw [if_pos hmem, if_pos hmem]
          simp [NodeService.statusLookup, List.find?_cons, hbeq]
        · rw [if_neg hmem, if_neg hmem]

/-- C7 (amended): the poller's per-entry update behaves as claimed once the JS
falsiness of the stored values is accounted for (a stored tick of 0 is
coerced to −1 by `serverObject?.tick || -1`, see the counterexample): for an
existing entry with non-zero stored tick and `lastTickChanged` and a fresh
poll timestamp, a successful probe sets `lastUpdated := now` and advances
`lastTickChanged` to `now` exactly when the reported tick (fetching tick for
Bob) differs from the stored one, leaving it unchanged otherwise; a failed
probe leaves an existing entry entirely untouched; and pruning drops exactly
the entries whose server is absent from the registered-node snapshot. -/
theorem status_poller_update_and_prune
    (o : NodeService.LiteEntry) (t : NodeService.LiteTickInfo) (node : NodeService.LiteNode)
    (ob : NodeService.BobEntry) (tb : NodeService.BobTickInfo) (nodeb : NodeService.BobNode)
    (now : Int) :
    (t.tick ≠ -1 → o.tick ≠ 0 → o.lastTickChanged ≠ 0 → o.lastTickChanged ≠ now →
      ((NodeService.updateLiteEntry (some o) t node now).map
          NodeService.LiteEntry.lastUpdated = some now)
      ∧ (((NodeService.updateLiteEntry (some o) t node now).map
            NodeService.LiteEntry.lastTickChanged = some now) ↔ t.tick ≠ o.tick)
      ∧ (t.tick = o.tick →
          (NodeService.updateLiteEntry (some o) t node now).map
            NodeService.LiteEntry.lastTickChanged = some o.lastTickChanged))
    ∧ (t.tick = -1 → NodeService.updateLiteEntry (some o) t node now = some o)
    ∧ (tb.currentFetchingTick ≠ -1 → ob.currentFetchingTick ≠ 0 →
        ob.lastTickChanged ≠ 0 → ob.lastTickChanged ≠ now →
      ((NodeService.updateBobEntry (some ob) tb nodeb now).map
          NodeService.BobEntry.lastUpdated = some now)
      ∧ (((NodeService.updateBobEntry (some ob) tb nodeb now).map
            NodeService.BobEntry.lastTickChanged = some now)
          ↔ tb.currentFetchingTick ≠ ob.currentFetchingTick)
      ∧ (tb.currentFetchingTick = ob.currentFetchingTick →
          (NodeService.updateBobEntry (some ob) tb nodeb now).map
            NodeService.BobEntry.lastTickChanged = some ob.lastTickChanged))
    ∧ (tb.currentFetchingTick = -1 → NodeService.updateBobEntry (some ob) tb nodeb now = some ob)
    ∧ (∀ (status : List (String × NodeService.LiteEntry)) (snapshot : List String)
        (server : String),
        NodeService.statusLookup (NodeService.pruneStatus status snapshot) server
          = if snapshot.contains server then NodeService.statusLookup status server
            else none) := by
  refine ⟨fun ht ho0 hl0 hfresh => ?_, fun ht => ?_, fun ht ho0 hl0 hfresh => ?_, fun ht => ?_,
    fun status snapshot server => statusLookup_prune status snapshot server⟩
  · have holdTick : SSHService.jsOptOrInt ((some o).map NodeService.LiteEntry.tick) (-1)
        = o.tick := by
      simp [SSHService.jsOptOrInt, SSHService.jsOrInt, ho0]
    have holdLtc : SSHService.jsOptOrInt
        ((some o).map NodeService.LiteEntry.lastTickChanged) (-1) = o.lastTickChanged := by
      simp [SSHService.jsOptOrInt, SSHService.jsOrInt, hl0]
    have hmapU : (NodeService.updateLiteEntry (some o) t node now).map
        NodeService.LiteEntry.lastUpdated = some now := by
      simp [NodeService.updateLiteEntry, ht]
    have hmap : (NodeService.updateLiteEntry (some o) t node now).map
        NodeService.LiteEntry.lastTickChanged
        = some (if o.tick ≠ t.tick then now else o.lastTickChanged) := by
      simp only [NodeService.updateLiteEntry, if_pos (Or.inl ht), holdTick, holdLtc]
      simp
    refine ⟨hmapU, ?_, ?_⟩
    · rw [hmap]
      simp only [Option.some.injEq]
      by_cases hc : o.tick = t.tick
      · rw [if_neg (by simp [hc])]
        exact ⟨fun h => absurd h hfresh, fun h => absurd hc.symm h⟩
      · rw [if_pos hc]
        exact ⟨fun _ => fun he => hc he.symm, fun _ => rfl⟩
    · intro heq
      rw [hmap, if_neg (by rw [heq]; simp)]
  · rw [NodeService.updateLiteEntry, if_neg (by simp [ht])]
  · have holdTick : SSHService.jsOptOrInt
        ((some ob).map NodeService.BobEntry.currentFetchingTick) (-1)
        = ob.currentFetchingTick := by
      simp [SSHService.jsOptOrInt, SSHService.jsOrInt, ho0]
    have holdLtc : SSHService.jsOptOrInt
        ((some ob).map NodeService.BobEntry.lastTickChanged) (-1) = ob.lastTickChanged := by
      simp [SSHService.jsOptOrInt, SSHService.jsOrInt, hl0]
    have hmapU : (NodeService.updateBobEntry (some ob) tb nodeb now).map
        NodeService.BobEntry.lastUpdated = some now := by
      simp [NodeService.updateBobEntry, ht]
    have hmap : (NodeService.updateBobEntry (some ob) tb nodeb now).map
        NodeService.BobEntry.lastTickChanged
        = some (if ob.currentFetchingTick ≠ tb.currentFetchingTick then now
            else ob.lastTickChanged) := by
      simp only [NodeService.updateBobEntry, if_pos (Or.inl ht), holdTick, holdLtc]
      simp
    refine ⟨hmapU, ?_, ?_⟩
    · rw [hmap]
      simp only [Option.some.injEq]
      by_cases hc : ob.currentFetchingTick = tb.currentFetchingTick
      · rw [if_neg (by simp [hc])]
        exact ⟨fun h => absurd h hfresh, fun h => absurd hc.symm h⟩
      · rw [if_pos hc]
        exact ⟨fun _ => fun he => hc he.symm, fun _ => rfl⟩
    · intro heq
      rw [hmap, if_neg (by rw [heq]; simp)]
  · rw [NodeService.updateBobEntry, if_neg (by simp [ht])]

/-- C7 witness: the spec's own scenario — stored tick 100, probe reports 105
at poll timestamp 77 — advances `lastTickChanged` to 77. -/
theorem status_poller_update_witness :
    (NodeService.updateLiteEntry
        (some { operator := "op", tick := 100, initialTick := 0, epoch := 1, alignedVotes := 0,
                misalignedVotes := 0, mainAuxStatus := 0, groupId := "",
                isSavingSnapshot := false, lastUpdated := 50, lastTickChanged := 5 })
        { tick := 105, initialTick := 0, epoch := 1, alignedVotes := 0, misalignedVotes := 0,
          mainAuxStatus := 0, isSavingSnapshot := false }
        plainLiteNode 77).map NodeService.LiteEntry.lastTickChanged = some 77 :=
  ((status_poller_update_and_prune
      { operator := "op", tick := 100, initialTick := 0, epoch := 1, alignedVotes := 0,
        misalignedVotes := 0, mainAuxStatus := 0, groupId := "",
        isSavingSnapshot := false, lastUpdated := 50, lastTickChanged := 5 }
      { tick := 105, initialTick := 0, epoch := 1, alignedVotes := 0, misalignedVotes := 0,
        mainAuxStatus := 0, isSavingSnapshot := false }
      plainLiteNode
      { operator := "op", currentProcessingEpoch := 0, currentFetchingTick := 1,
        currentFetchingLogTick := 0, currentVerifyLoggingTick := 0, currentIndexingTick := 0,
        initialTick := 0, lastUpdated := 0, lastTickChanged := 1, bobVersion := "v" }
      { currentProcessingEpoch := 0, currentFetchingTick := 1, currentFetchingLogTick := 0,
        currentVerifyLoggingTick := 0, currentIndexingTick := 0, initialTick := 0,
        bobVersion := none }
      { server := "b", operator := none, isPrivate := false }
      77).1 (by decide) (by decide) (by decide) (by decide)).2.1.mpr (by decide)

theorem nodup_subset_same_length_mem {chosen E : List Nat} (hnd : chosen.Nodup)
    (hEnd : E.Nodup) (hsub : ∀ c ∈ chosen, c ∈ E) (hlen : E.length ≤ chosen.length) :
    ∀ i, i ∈ chosen ↔ i ∈ E := by
  have h1 : chosen.toFinset ⊆ E.toFinset := by
    intro x hx
    rw [List.mem_toFinset] at *
    exact hsub x hx
  have hcard : E.toFinset.card ≤ chosen.toFinset.card := by
    rw [List.toFinset_card_of_nodup hnd, List.toFinset_card_of_nodup hEnd]
    exact hlen
  have heq := Finset.eq_of_subset_of_card_le h1 hcard
  intro i
  rw [← List.mem_toFinset, ← List.mem_toFinset (l := E), heq]

theorem selectLoop_spec (cand : Nat → Bool) (E : List Nat)
    (hE : ∀ i, cand i = true ↔ i ∈ E) (hEnd : E.Nodup) :
    ∀ (stream chosen : List Nat), chosen.Nodup → (∀ c ∈ chosen, c ∈ E) →
      (∀ e ∈ E, e ∉ chosen → e ∈ stream) →
      ∃ out, NodeService.selectLoop cand E.length stream chosen = some out
        ∧ out.Nodup ∧ (∀ i, i ∈ out ↔ i ∈ E) := by
  intro stream
  induction stream with
  | nil =>
    intro chosen hnd hsub hcov
    have hsup : ∀ e ∈ E, e ∈ chosen := by
      intro e he
      by_contra hne
      exact absurd (hcov e he hne) (List.not_mem_nil e)
    have hlen : E.length ≤ chosen.length := by
      have h1 : E.toFinset ⊆ chosen.toFinset := by
        intro x hx
        rw [List.mem_toFinset] at *
        exact hsup x hx
      have := Finset.card_le_card h1
      rwa [List.toFinset_card_of_nodup hnd, List.toFinset_card_of_nodup hEnd] at this
    refine ⟨chosen, ?_, hnd, nodup_subset_same_length_mem hnd hEnd hsub hlen⟩
    simp [NodeService.selectLoop, if_pos hlen]
  | cons a rest ih =>
    intro chosen hnd hsub hcov
    by_cases hstop : E.length ≤ chosen.length
    · refine ⟨chosen, ?_, hnd, nodup_subset_same_length_mem hnd hEnd hsub hstop⟩
      simp [NodeService.selectLoop, if_pos hstop]
    · rw [show NodeService.selectLoop cand E.length (a :: rest) chosen
          = if E.length ≤ chosen.length then some chosen
            else if a ∉ chosen ∧ cand a = true
              then NodeService.selectLoop cand E.length rest (chosen ++ [a])
              else NodeService.selectLoop cand E.length rest chosen from rfl]
      rw [if_neg hstop]
      by_cases htake : a ∉ chosen ∧ cand a = true
      · rw [if_pos htake]
        apply ih (chosen ++ [a])
        · refine List.Nodup.append hnd (List.nodup_singleton a) ?_
          intro x hx hx2
          rw [List.mem_singleton] at hx2
          subst hx2
          exact htake.1 hx
        · intro c hc
          rcases List.mem_append.mp hc with h | h
          · exact hsub c h
          · rw [List.mem_singleton] at h
            exact h ▸ (hE a).mp htake.2
        · intro e he hne
          have h1 : e ∉ chosen := fun hh => hne (List.mem_append.mpr (Or.inl hh))
          have h2 : e ≠ a := fun hh =>
            hne (List.mem_append.mpr (Or.inr (List.mem_singleton.mpr hh)))
          rcases List.mem_cons.mp (hcov e he h1) with h | h
          · exact absurd h h2
          · exact h
      · rw [if_neg htake]
        apply ih chosen hnd hsub
        intro e he hne
        rcases List.mem_cons.mp (hcov e he hne) with h | h
        · subst h
          have hc : cand e = true := (hE e).mpr he
          have : e ∈ chosen := by
            by_contra hnc
            exact htake ⟨hnc, hc⟩
          exact absurd this hne
        · exact h

theorem candAt_filter_length {α : Type} (p : α → Bool) :
    ∀ (l : List α),
      ((List.range l.length).filter (NodeService.candAt p l)).length = (l.filter p).length := by
  intro l
  induction l with
  | nil => rfl
  | cons a as ih =>
    have hlen : (a :: as).length = as.length + 1 := rfl
    rw [hlen, List.range_succ_eq_map, List.filter_cons]
    have hcand0 : NodeService.candAt p (a :: as) 0 = p a := by
      unfold NodeService.candAt
      rw [List.getElem?_cons_zero]
    have hcomp : (NodeService.candAt p (a :: as)) ∘ Nat.succ = NodeService.candAt p as := by
      funext i
      show NodeService.candAt p (a :: as) (i + 1) = NodeService.candAt p as i
      unfold NodeService.candAt
      rw [List.getElem?_cons_succ]
    have hmap : ((List.range as.length).map Nat.succ).filter (NodeService.candAt p (a :: as))
        = ((List.range as.length).filter (NodeService.candAt p as)).map Nat.succ := by
      rw [List.filter_map, hcomp]
    rw [hcand0, List.filter_cons]
    by_cases hpa : p a = true
    · rw [if_pos hpa, if_pos hpa]
      simp only [List.length_cons, hmap, List.length_map]
      rw [ih]
    · rw [if_neg hpa, if_neg hpa]
      simp only [hmap, List.length_map]
      rw [ih]

theorem mem_eligibleIndices {α : Type} (p : α → Bool) (servers : List α) (i : Nat) :
    NodeService.candAt p servers i = true ↔ i ∈ NodeService.eligibleIndices p servers := by
  unfold NodeService.eligibleIndices
  rw [List.mem_filter, List.mem_range]
  constructor
  · intro h
    refine ⟨?_, h⟩
    unfold NodeService.candAt at h
    cases hg : servers[i]? with
    | none => rw [hg] at h; exact absurd h (by simp)
    | some s =>
      rw [List.getElem?_eq_some] at hg
      exact hg.1
  · exact fun h => h.2

theorem eligibleIndices_nodup {α : Type} (p : α → Bool) (servers : List α) :
    (NodeService.eligibleIndices p servers).Nodup :=
  (List.nodup_range servers.length).filter (NodeService.candAt p servers)

theorem pickRandomCore_spec {α : Type} (elig : α → Bool) (n : Nat) (servers : List α)
    (stream : List Nat)
    (hcnt : (servers.filter elig).length ≤ n)
    (hcov : ∀ e ∈ NodeService.eligibleIndices elig servers, e ∈ stream) :
    ∃ idxs : List Nat, idxs.Nodup
      ∧ (∀ i, i ∈ idxs ↔ i ∈ NodeService.eligibleIndices elig servers)
      ∧ NodeService.pickRandomCore elig n servers stream
          = some (idxs.filterMap (fun i => servers[i]?)) := by
  have hElen : (NodeService.eligibleIndices elig servers).length
      = (servers.filter elig).length := candAt_filter_length elig servers
  have hclamp : (if (servers.filter elig).length < n then (servers.filter elig).length else n)
      = (NodeService.eligibleIndices elig servers).length := by
    rw [hElen]
    by_cases h : (servers.filter elig).length < n
    · rw [if_pos h]
    · rw [if_neg h]
      omega
  obtain ⟨out, hsel, hnd, hmem⟩ := selectLoop_spec (NodeService.candAt elig servers)
    (NodeService.eligibleIndices elig servers) (mem_eligibleIndices elig servers)
    (eligibleIndices_nodup elig servers) stream [] (List.nodup_nil)
    (by intro c hc; exact absurd hc (List.not_mem_nil c))
    (fun e he _ => hcov e he)
  refine ⟨out, hnd, hmem, ?_⟩
  unfold NodeService.pickRandomCore
  dsimp only
  rw [hclamp, hsel]
  rfl

/-- A lite status entry whose tick last changed at timestamp 10000000 — active
when polled at that same instant. -/
def activeEntry : NodeService.LiteEntry :=
  { operator := "op", tick := 7, initialTick := 1, epoch := 1, alignedVotes := 0,
    misalignedVotes := 0, mainAuxStatus := 0, groupId := "", isSavingSnapshot := false,
    lastUpdated := 10000000, lastTickChanged := 10000000 }

/-- A registered lite node that is active at the sample timestamp. -/
def nodeA : NodeService.LiteNode :=
  { server := "a", operator := none, groupId := none, isPrivate := false, passcode := none }

/-- A registered lite node with no status entry — inactive at the sample
timestamp. -/
def nodeB : NodeService.LiteNode :=
  { server := "b", operator := none, groupId := none, isPrivate := false, passcode := none }

/-- The in-memory lite status table of the C6 scenario: only `nodeA` has an
entry. -/
def sampleLiteStatus : List (String × NodeService.LiteEntry) := [("a", activeEntry)]

/-- C6 counterexample: with a pool of two nodes of which only one is eligible
(active), asking for `n = 2` returns the whole pool — including the
ineligible node — via the `n >= servers.length` early return, not "exactly
the eligible nodes" as claimed (the eligible population, 1, is ≤ n). -/
theorem getRandomLiteNode_returns_ineligible_counterexample :
    NodeService.getRandomLiteNode sampleLiteStatus 10000000 2 false [nodeA, nodeB] []
      = some [nodeA, nodeB]
    ∧ NodeService.checkIsCandidateLite sampleLiteStatus 10000000 false nodeB = false
    ∧ ([nodeA, nodeB].filter
        (NodeService.checkIsCandidateLite sampleLiteStatus 10000000 false)).length = 1
    ∧ NodeService.getRandomLiteNode sampleLiteStatus 10000000 2 false [nodeA, nodeB] []
      ≠ some ([nodeA, nodeB].filter
          (NodeService.checkIsCandidateLite sampleLiteStatus 10000000 false)) := by
  refine ⟨by decide, by decide, by decide, by decide⟩

/-- C6 (amended): `getRandomLiteNode`/`getRandomBobNode` terminate with all
eligible nodes only through the sampling loop: when `n ≥ pool size` the whole
pool is returned immediately — eligible or not — without sampling (in
particular, pool size = n terminates at once returning the pool); when
`n < pool size` and the eligible population is at most `n`, the loop, fed any
sample stream that proposes every eligible index, terminates and returns
exactly the eligible nodes (each eligible index exactly once). -/
theorem getRandomNode_pool_and_eligible_exhaustion
    (status : List (String × NodeService.LiteEntry)) (now : Int) (needPass : Bool)
    (n : Nat) (servers : List NodeService.LiteNode) (stream : List Nat)
    (statusB : List (String × NodeService.BobEntry)) (nB : Nat)
    (serversB : List NodeService.BobNode) (streamB : List Nat) :
    (servers.length ≤ n →
      NodeService.getRandomLiteNode status now n needPass servers stream = some servers)
    ∧ (n < servers.length →
      (servers.filter (NodeService.checkIsCandidateLite status now needPass)).length ≤ n →
      (∀ e ∈ NodeService.eligibleIndices
          (NodeService.checkIsCandidateLite status now needPass) servers, e ∈ stream) →
      ∃ idxs : List Nat, idxs.Nodup
        ∧ (∀ i, i ∈ idxs ↔ i ∈ NodeService.eligibleIndices
            (NodeService.checkIsCandidateLite status now needPass) servers)
        ∧ NodeService.getRandomLiteNode status now n needPass servers stream
            = some (idxs.filterMap (fun i => servers[i]?)))
    ∧ (serversB.length ≤ nB →
      NodeService.getRandomBobNode statusB now nB serversB streamB = some serversB)
    ∧ (nB < serversB.length →
      (serversB.filter (NodeService.checkIsCandidateBob statusB now)).length ≤ nB →
      (∀ e ∈ NodeService.eligibleIndices
          (NodeService.checkIsCandidateBob statusB now) serversB, e ∈ streamB) →
      ∃ idxs : List Nat, idxs.Nodup
        ∧ (∀ i, i ∈ idxs ↔ i ∈ NodeService.eligibleIndices
            (NodeService.checkIsCandidateBob statusB now) serversB)
        ∧ NodeService.getRandomBobNode statusB now nB serversB streamB
            = some (idxs.filterMap (fun i => serversB[i]?))) := by
  refine ⟨fun h => ?_, fun hlt hcnt hcov => ?_, fun h => ?_, fun hlt hcnt hcov => ?_⟩
  · rw [NodeService.getRandomLiteNode, if_pos h]
  · rw [NodeService.getRandomLiteNode, if_neg (by omega)]
    exact pickRandomCore_spec _ n servers stream hcnt hcov
  · rw [NodeService.getRandomBobNode, if_pos h]
  · rw [NodeService.getRandomBobNode, if_neg (by omega)]
    exact pickRandomCore_spec _ nB serversB streamB hcnt hcov

/-- C6 witness: with the two-node pool of the counterexample and `n = 1`, the
sampling loop fed the stream `[1, 0]` rejects the inactive node and
terminates with exactly the eligible one. -/
theorem getRandomNode_exhaustion_witness :
    ∃ idxs : List Nat, idxs.Nodup
      ∧ (∀ i, i ∈ idxs ↔ i ∈ NodeService.eligibleIndices
          (NodeService.checkIsCandidateLite sampleLiteStatus 10000000 false) [nodeA, nodeB])
      ∧ NodeService.getRandomLiteNode sampleLiteStatus 10000000 1 false [nodeA, nodeB] [1, 0]
          = some (idxs.filterMap (fun i => [nodeA, nodeB][i]?)) :=
  (getRandomNode_pool_and_eligible_exhaustion sampleLiteStatus 10000000 false 1
    [nodeA, nodeB] [1, 0] [] 0 [] []).2.1 (by decide) (by decide) (by decide)
